import Mathlib

/-!
Shallow embedding of the account-lifecycle logic of
`internal/provider/resource_aws_account.go` (terraform-provider-controltower),
together with theorems settling the spec claims about it.

The embedding follows the AWS-SDK-v2 variant of the resource file (the most
recent revision in the repository), whose `waitForProvisioning` handles an
empty `RecordErrors` list explicitly; where the two revisions agree the
definitions are shared.  Go maps (tags) are modelled as association lists with
pairwise-distinct keys; pointers that the Go code dereferences unconditionally
are modelled as plain values, and pointers it nil-checks are `Option`s.
-/

namespace ControlTower

/-- `servicecatalog` record status.  The Go code compares only against
`Succeeded` and `Failed`; every other status keeps the poll loop running. -/
inductive RecordStatus
  | created
  | inProgress
  | inProgressInError
  | succeeded
  | failed
  deriving DecidableEq, Repr

/-- One entry of `RecordDetail.RecordErrors`. -/
structure RecordError where
  description : String
  deriving DecidableEq, Repr

/-- One entry of `RecordOutputs`: an output key/value pair. -/
structure RecordOutput where
  outputKey : String
  outputValue : String
  deriving DecidableEq, Repr

/-- The part of `DescribeRecordOutput.RecordDetail` the resource code reads. -/
structure RecordDetail where
  status : RecordStatus
  recordErrors : List RecordError
  deriving DecidableEq, Repr

/-- The part of a `DescribeRecordOutput` the resource code reads. -/
structure DescribeRecordOutput where
  recordDetail : RecordDetail
  recordOutputs : List RecordOutput
  deriving DecidableEq, Repr

/-- Outcome of one `scconn.DescribeRecord` call: a transport error or a
record. -/
abbrev FetchOutcome := Except String DescribeRecordOutput

/-! ## Provisioned-product-name sanitization

Embeds `invalidProductNameChars = regexp.MustCompile("[^a-zA-Z0-9._-]")` and
its use `invalidProductNameChars.ReplaceAllString(name, "_")` in
`resourceAWSAccountCreate`.  The pattern is a single-character class, so
`ReplaceAllString` maps each character of the input independently. -/

/-- A character NOT matched by `invalidProductNameChars`, i.e. one inside the
class `[a-zA-Z0-9._-]`.  `Char.isAlphanum` is the ASCII `[a-zA-Z0-9]`. -/
def isValidProductNameChar (c : Char) : Bool :=
  c.isAlphanum || c == '.' || c == '_' || c == '-'

/-- Replacement performed on one character by
`invalidProductNameChars.ReplaceAllString(name, "_")`. -/
def sanitizeChar (c : Char) : Char :=
  if isValidProductNameChar c then c else '_'

/-- `invalidProductNameChars.ReplaceAllString(name, "_")`. -/
def sanitizeProductName (name : String) : String :=
  ⟨name.data.map sanitizeChar⟩

/-- The provisioned product name used by `resourceAWSAccountCreate`: the
configured `provisioned_product_name` when non-empty (Go zero value "" means
not configured), otherwise the sanitized account name:
`if ppn == "" { ppn = invalidProductNameChars.ReplaceAllString(name, "_") }`. -/
def chosenProvisionedProductName (ppn name : String) : String :=
  if ppn = "" then sanitizeProductName name else ppn

/-! ## Tag reconciliation (`removedTags`, `updatedTags`, `updateAccountTags`)

Go `map[string]interface{}` tag maps are modelled as `List (String × String)`
with pairwise-distinct keys; `lookupTag` is Go map indexing. -/

/-- Go map lookup `m[k]` on the association-list model. -/
def lookupTag : List (String × String) → String → Option String
  | [], _ => none
  | kv :: rest, k => if kv.1 = k then some kv.2 else lookupTag rest k

/-- `removedTags(old, new)`: entries of `old` whose key is absent from
`new`. -/
def removedTags (oldTagsMap newTagsMap : List (String × String)) :
    List (String × String) :=
  oldTagsMap.filter fun kv => lookupTag newTagsMap kv.1 = none

/-- `updatedTags(old, new)`: entries of `new` whose key is absent from `old`
or mapped to a different value there. -/
def updatedTags (oldTagsMap newTagsMap : List (String × String)) :
    List (String × String) :=
  newTagsMap.filter fun kv => lookupTag oldTagsMap kv.1 ≠ some kv.2

/-- The remote calls `updateAccountTags` issues: one `UntagResource` call when
`removedTags` is non-empty, then one `TagResource` call when `updatedTags` is
non-empty (`0` to `2` calls in total). -/
def updateAccountTagsCallCount (oldTagsMap newTagsMap : List (String × String)) :
    Nat :=
  (if removedTags oldTagsMap newTagsMap ≠ [] then 1 else 0) +
    (if updatedTags oldTagsMap newTagsMap ≠ [] then 1 else 0)

/-- Removing a key set from a tag map (the effect of the one `UntagResource`
call carrying `keys(removedTags)`). -/
def eraseTagKeys (m : List (String × String)) (ks : List String) :
    List (String × String) :=
  m.filter fun kv => ¬ ks.contains kv.1

/-- Overwriting a tag map with a set of entries (the effect of the one
`TagResource` call carrying `updatedTags`): entries of `upd` win. -/
def overwriteTags (m upd : List (String × String)) : List (String × String) :=
  upd ++ m.filter fun kv => lookupTag upd kv.1 = none

/-- Applying the computed diff to `old`: untag the removed keys, then tag the
updated entries. -/
def applyTagDiff (oldTagsMap newTagsMap : List (String × String)) :
    List (String × String) :=
  overwriteTags
    (eraseTagKeys oldTagsMap ((removedTags oldTagsMap newTagsMap).map Prod.fst))
    (updatedTags oldTagsMap newTagsMap)

/-! ## Completion poller (`waitForProvisioning`)

The Go loop repeatedly calls `DescribeRecord`; we feed it the sequence of
outcomes those calls would return.  The result carries the number of fetch
calls performed.  `none` means the supplied sequence was exhausted with the
loop still pending (the real loop would sleep and fetch again). -/

/-- Result of one `waitForProvisioning` run. -/
inductive PollResult
  | success (record : DescribeRecordOutput)
  | provisioningFailed (msg : String)
  | fetchError (msg : String)
  deriving DecidableEq, Repr

/-- `waitForProvisioning` (lines 820–856 of the SDK-v2 revision): fetch the
record; a transport error is wrapped and returned at once; `Succeeded` breaks
the loop returning the record; `Failed` returns the first error description if
any, else a generic message naming the account; anything else sleeps 5s and
fetches again. -/
def waitForProvisioning (name : String) :
    List FetchOutcome → Option (Nat × PollResult)
  | [] => none
  | f :: rest =>
    match f with
    | .error e =>
        some (1, .fetchError
          ("error reading provisioning status of account " ++ name ++ ": " ++ e))
    | .ok r =>
        if r.recordDetail.status = .succeeded then
          some (1, .success r)
        else if r.recordDetail.status = .failed then
          some (1, .provisioningFailed
            (match r.recordDetail.recordErrors with
             | [] => "provisioning account " ++ name ++ " failed with unknown error"
             | e :: _ => "provisioning account " ++ name ++ " failed: " ++ e.description))
        else
          match waitForProvisioning name rest with
          | none => none
          | some (n, res) => some (n + 1, res)

/-- Whether a status ends the poll loop. -/
def RecordStatus.isTerminal : RecordStatus → Bool
  | .succeeded => true
  | .failed => true
  | _ => false

/-! ## Event traces of the lifecycle operations

To reason about ordering (mutex scope, identifier assignment, delete
compensation) each operation is embedded as the sequence of observable events
it performs.  `lock`/`unlock` are `accountMutex.Lock()` and the deferred
`accountMutex.Unlock()` (which Go runs when the surrounding function
returns). -/

inductive Event
  | resolveCall      -- findServiceCatalogAccountProductId
  | describeCall     -- scconn.DescribeProvisionedProduct
  | lock             -- accountMutex.Lock()
  | unlock           -- deferred accountMutex.Unlock(), runs at function return
  | provisionCall    -- scconn.ProvisionProduct
  | reprovisionCall  -- scconn.UpdateProvisionedProduct
  | terminateCall    -- scconn.TerminateProvisionedProduct
  | setId            -- d.SetId(*account.RecordDetail.ProvisionedProductId)
  | fetch            -- scconn.DescribeRecord inside waitForProvisioning
  | sleep            -- time.Sleep(5 * time.Second) inside waitForProvisioning
  | tagCall          -- organizationsconn.TagResource / updateAccountTags
  | assignCall       -- updateAccountAssignment (SSO)
  | readCall         -- the trailing resourceAWSAccountRead
  | findRootCall     -- findParentOrganizationRootId
  | moveCall         -- organizationsconn.MoveAccount
  | closeCall        -- organizationsconn.CloseAccount
  deriving DecidableEq, Repr

/-- Events performed by one `waitForProvisioning` run on the given fetch
outcomes: every iteration fetches; only a pending (non-terminal) record is
followed by a sleep and a further iteration. -/
def pollEvents : List FetchOutcome → List Event
  | [] => []
  | f :: rest =>
    Event.fetch ::
      match f with
      | .error _ => []
      | .ok r =>
          if r.recordDetail.status = .succeeded then []
          else if r.recordDetail.status = .failed then []
          else Event.sleep :: pollEvents rest

/-- The tagging phase of `resourceAWSAccountCreate` (lines 235–247): the loop
over `record.RecordOutputs` calls `TagResource` only for an `AccountId`
output; a tagging error aborts the operation.  The per-output loop is
collapsed to a single call. -/
def createTagPhase (r : DescribeRecordOutput) (tagRes : Except String Unit) :
    List Event × Option String :=
  match r.recordOutputs.filter fun o => o.outputKey = "AccountId" with
  | [] => ([], none)
  | o :: _ =>
    match tagRes with
    | .error e => ([Event.tagCall], some ("error tagging account " ++ o.outputValue ++ ": " ++ e))
    | .ok _ => ([Event.tagCall], none)

/-- Event trace of `resourceAWSAccountCreate` from product resolution onward:
resolve; on success lock, provision (deferred unlock pending); a provision
error returns (running the deferred unlock); otherwise set the id, poll, and
on poll success tag and fall through to Read; every return path ends with the
deferred unlock.  A trace without `unlock` means the modelled fetch sequence
was exhausted with the poll still running. -/
def createEvents (resolve : Except String Unit) (provision : Except String String)
    (name : String) (fetches : List FetchOutcome) (tagRes : Except String Unit) :
    List Event :=
  Event.resolveCall ::
    match resolve with
    | .error _ => []
    | .ok _ =>
      Event.lock :: Event.provisionCall ::
        match provision with
        | .error _ => [Event.unlock]
        | .ok _ =>
          Event.setId :: (pollEvents fetches ++
            match waitForProvisioning name fetches with
            | some (_, PollResult.success r) =>
                (createTagPhase r tagRes).1 ++
                  (match (createTagPhase r tagRes).2 with
                   | some _ => [Event.unlock]
                   | none => [Event.readCall, Event.unlock])
            | some (_, _) => [Event.unlock]
            | none => [])

/-- Final external-identifier value and diagnostics of one
`resourceAWSAccountCreate` run (`none` while the poll loop is still running).
`finalId = none` means `d.SetId` was never called. -/
structure CreateOutcome where
  finalId : Option String
  diags : Option String
  deriving DecidableEq, Repr

/-- Result of `resourceAWSAccountCreate` from the provision call onward:
a provision error fails without setting the id; otherwise the id is set to
the returned provisioned-product id before polling, and every later outcome
(poll failure, fetch error, tagging error, success) leaves it set. -/
def createResult (provision : Except String String) (name : String)
    (fetches : List FetchOutcome) (tagRes : Except String Unit) :
    Option CreateOutcome :=
  match provision with
  | .error e =>
      some ⟨none, some ("error provisioning account " ++ name ++ ": " ++ e)⟩
  | .ok ppId =>
    match waitForProvisioning name fetches with
    | none => none
    | some (_, PollResult.success r) =>
        some ⟨some ppId, (createTagPhase r tagRes).2⟩
    | some (_, PollResult.provisioningFailed m) => some ⟨some ppId, some m⟩
    | some (_, PollResult.fetchError m) => some ⟨some ppId, some m⟩

/-- Event trace of the reprovisioning branch of `resourceAWSAccountUpdate`
(entered when fields other than tags / OU-on-delete / close-on-delete
changed), followed by the tag / SSO-assignment / Read tail.  With
`hasNonTagChanges = false` only the tail runs and the mutex is never
taken. -/
def updateEvents (hasNonTagChanges : Bool) (resolve : Except String Unit)
    (reprovision : Except String String) (name : String)
    (fetches : List FetchOutcome) (tagsChanged ssoChanged : Bool) : List Event :=
  if hasNonTagChanges then
    Event.resolveCall ::
      match resolve with
      | .error _ => []
      | .ok _ =>
        Event.lock :: Event.reprovisionCall ::
          match reprovision with
          | .error _ => [Event.unlock]
          | .ok _ =>
            pollEvents fetches ++
              match waitForProvisioning name fetches with
              | some (_, PollResult.success _) =>
                  (if tagsChanged then [Event.tagCall] else []) ++
                    (if ssoChanged then [Event.assignCall] else []) ++
                    [Event.readCall, Event.unlock]
              | some (_, _) => [Event.unlock]
              | none => []
  else
    (if tagsChanged then [Event.tagCall] else []) ++
      (if ssoChanged then [Event.assignCall] else []) ++ [Event.readCall]

/-! ## Delete compensation (move to OU, close account)

`resourceAWSAccountDelete` lines 572–598: after the terminate poll succeeds,
`accountExists` is `d.GetOk("account_id")` (false for the zero value `""`),
`accountProvisioned` is `LastSuccessfulProvisioningRecordId != nil`; the
move-to-OU block runs first and only when `organizational_unit_id_on_delete`
is set and both conditions hold; the close block runs after it and only when
`close_account_on_delete` and the same two conditions hold; any error in
either block returns it as the operation's error. -/

/-- The move-to-OU block (lines 574–588): guarded by
`d.GetOk("organizational_unit_id_on_delete")`, `accountExists` and
`accountProvisioned`; resolves the root, then moves; either error is
returned as the operation's error. -/
def deleteMoveStep (ouIdOnDelete accountId : String) (accountProvisioned : Bool)
    (findRootRes : Except String String) (moveRes : Except String Unit) :
    List Event × Option String :=
  if ouIdOnDelete ≠ "" ∧ accountId ≠ "" ∧ accountProvisioned then
    match findRootRes with
    | .error e => ([Event.findRootCall], some e)
    | .ok _ =>
      match moveRes with
      | .error e => ([Event.findRootCall, Event.moveCall], some e)
      | .ok _ => ([Event.findRootCall, Event.moveCall], none)
  else ([], none)

/-- The close-account block (lines 590–598): guarded by
`close_account_on_delete`, `accountExists` and `accountProvisioned`; a close
error is wrapped naming the account. -/
def deleteCloseStep (closeOnDelete : Bool) (accountId : String)
    (accountProvisioned : Bool) (closeRes : Except String Unit) :
    List Event × Option String :=
  if closeOnDelete ∧ accountId ≠ "" ∧ accountProvisioned then
    match closeRes with
    | .error e => ([Event.closeCall],
        some ("error closing account " ++ accountId ++ ": " ++ e))
    | .ok _ => ([Event.closeCall], none)
  else ([], none)

/-- The two compensation blocks of `resourceAWSAccountDelete` in program
order (move first, then close; an error in the move block returns before the
close block runs): the remote calls performed, in order, and the error (if
any) the operation returns. -/
def deleteCompensation (ouIdOnDelete : String) (closeOnDelete : Bool)
    (accountId : String) (accountProvisioned : Bool)
    (findRootRes : Except String String) (moveRes closeRes : Except String Unit) :
    List Event × Option String :=
  match deleteMoveStep ouIdOnDelete accountId accountProvisioned findRootRes moveRes with
  | (evs, some e) => (evs, some e)
  | (evs, none) =>
    match deleteCloseStep closeOnDelete accountId accountProvisioned closeRes with
    | (cevs, r) => (evs ++ cevs, r)

/-- Event trace of `resourceAWSAccountDelete`: describe the provisioned
product (capturing `accountProvisioned`), then lock, terminate (deferred
unlock pending), poll, and on poll success run the compensation blocks;
every return path after the lock ends with the deferred unlock. -/
def deleteEvents (describeRes : Except String Bool)
    (terminate : Except String String) (name : String)
    (fetches : List FetchOutcome) (ouIdOnDelete : String) (closeOnDelete : Bool)
    (accountId : String) (findRootRes : Except String String)
    (moveRes closeRes : Except String Unit) : List Event :=
  Event.describeCall ::
    match describeRes with
    | .error _ => []
    | .ok accountProvisioned =>
      Event.lock :: Event.terminateCall ::
        match terminate with
        | .error _ => [Event.unlock]
        | .ok _ =>
          pollEvents fetches ++
            match waitForProvisioning name fetches with
            | some (_, PollResult.success _) =>
                (deleteCompensation ouIdOnDelete closeOnDelete accountId
                    accountProvisioned findRootRes moveRes closeRes).1 ++
                  [Event.unlock]
            | some (_, _) => [Event.unlock]
            | none => []

/-! ## Read: drift-to-absent head and output extraction -/

/-- Errors a remote describe call can report. -/
inductive AwsError
  | resourceNotFound
  | other (msg : String)
  deriving DecidableEq, Repr

/-- Rendering used when the Go code formats the error with `%v`/`%s`. -/
def AwsError.render : AwsError → String
  | .resourceNotFound => "ResourceNotFoundException"
  | .other m => m

/-- The part of `ProvisionedProductDetail` the resource code reads. -/
structure ProvisionedProductDetail where
  name : String
  lastProvisioningRecordId : Option String
  lastSuccessfulProvisioningRecordId : Option String
  deriving DecidableEq, Repr

/-- State and control flow after the head of `resourceAWSAccountRead`
(lines 258–271): `newId` is `d.Id()` afterwards, `diags` the error (if any),
`proceedWith` the product when the read continues. -/
structure ReadHeadResult where
  newId : String
  diags : Option String
  proceedWith : Option ProvisionedProductDetail
  deriving DecidableEq, Repr

/-- Head of `resourceAWSAccountRead`: describe the provisioned product by the
stored id; when the resource is not freshly created and the error is
resource-not-found, clear the id and return no error; any other error is
returned; otherwise continue with the product. -/
def readHead (isNewResource : Bool) (currentId : String)
    (describeRes : Except AwsError ProvisionedProductDetail) : ReadHeadResult :=
  match describeRes with
  | .ok p => ⟨currentId, none, some p⟩
  | .error e =>
    if isNewResource = false ∧ e = AwsError.resourceNotFound then
      ⟨"", none, none⟩
    else
      ⟨currentId, some ("error reading configuration of provisioned product: " ++ e.render), none⟩

/-- The fields `resourceAWSAccountRead` extracts from `RecordOutputs`
(lines 305–319): a switch over the output key, later matches overwriting
earlier ones, unknown keys ignored. -/
structure ReadExtraction where
  accountId : String
  email : Option String
  ssoEmail : Option String
  deriving DecidableEq, Repr

/-- The extraction loop of `resourceAWSAccountRead`.  `accountId` starts as
the Go zero value `""`. -/
def extractOutputs (outputs : List RecordOutput) : ReadExtraction :=
  outputs.foldl
    (fun acc o =>
      if o.outputKey = "AccountEmail" then { acc with email := some o.outputValue }
      else if o.outputKey = "AccountId" then { acc with accountId := o.outputValue }
      else if o.outputKey = "SSOUserEmail" then { acc with ssoEmail := some o.outputValue }
      else acc)
    ⟨"", none, none⟩

/-- The guard after the extraction loop (lines 324–327): when no `AccountId`
output was seen the read returns early with nil diagnostics; otherwise it
proceeds to the directory lookups.  Returns `(diagnostics, proceeds?)`. -/
def readAfterExtraction (outputs : List RecordOutput) : Option String × Bool :=
  if (extractOutputs outputs).accountId = "" then (none, false) else (none, true)

/-! ## Product resolution (`findServiceCatalogAccountProductId`) -/

/-- The part of a `ProductViewSummary` the code reads. -/
structure ProductViewSummary where
  productId : String
  deriving DecidableEq, Repr

/-- The part of a `ProvisioningArtifactDetail` the code reads; `Active` is a
`*bool`, read as `artifact.Active != nil && *artifact.Active`. -/
structure ProvisioningArtifactDetail where
  id : String
  active : Option Bool
  deriving DecidableEq, Repr

/-- `findServiceCatalogAccountProductId` (lines 858–891): search must return
exactly one product; then the first artifact flagged active is selected; no
active artifact is an error.  The Go function also returns the partial
product id alongside an artifact error; callers only use it when the error is
nil, so the embedding returns `Except`. -/
def findServiceCatalogAccountProductId
    (searchRes : Except String (List ProductViewSummary))
    (artifactsRes : Except String (List ProvisioningArtifactDetail)) :
    Except String (String × String) :=
  match searchRes with
  | .error e =>
      .error ("error occurred while searching for the account product: " ++ e)
  | .ok products =>
    match products with
    | [product] =>
      match artifactsRes with
      | .error e => .error ("error listing provisioning artifacts: " ++ e)
      | .ok artifacts =>
        match artifacts.find? fun a => a.active = some true with
        | some artifact => .ok (product.productId, artifact.id)
        | none => .error "could not find the provisioning artifact ID"
    | _ =>
        .error ("unexpected number of search results: " ++ toString products.length)

/-! ## Concrete sample data used by witnesses and counterexamples -/

/-- A record still in progress. -/
def pendingRecord : DescribeRecordOutput := ⟨⟨RecordStatus.inProgress, []⟩, []⟩

/-- A succeeded record carrying an `AccountId` output. -/
def succeededRecord : DescribeRecordOutput :=
  ⟨⟨RecordStatus.succeeded, []⟩, [⟨"AccountId", "123456789012"⟩]⟩

/-- A failed record with one error description. -/
def failedQuotaRecord : DescribeRecordOutput :=
  ⟨⟨RecordStatus.failed, [⟨"quota exceeded"⟩]⟩, []⟩

/-- A succeeded record with no `AccountId` output. -/
def noAccountIdRecord : DescribeRecordOutput :=
  ⟨⟨RecordStatus.succeeded, []⟩, [⟨"AccountEmail", "admin@example.com"⟩]⟩

/-! ## Theorems -/

/-- `sanitizeChar` is idempotent: `'_'` itself is inside `[a-zA-Z0-9._-]`. -/
lemma sanitizeChar_idem (c : Char) : sanitizeChar (sanitizeChar c) = sanitizeChar c := by
  by_cases h : isValidProductNameChar c
  · simp [sanitizeChar, h]
  · simp [sanitizeChar, h]

/-- Claim C10: for every non-empty account name, the provisioned-product-name
sanitizer maps exactly the characters outside `[A-Za-z0-9._-]` to `'_'`
(pointwise, preserving length), is idempotent, and is applied in Create only
when no provisioned product name is explicitly configured. -/
theorem sanitizeProductName_spec (name : String) (hne : name ≠ "") :
    (sanitizeProductName name).length = name.length ∧
    (∀ i : Nat, (sanitizeProductName name).data.get? i =
      (name.data.get? i).map fun c => if isValidProductNameChar c then c else '_') ∧
    sanitizeProductName (sanitizeProductName name) = sanitizeProductName name ∧
    chosenProvisionedProductName "" name = sanitizeProductName name ∧
    ∀ ppn, ppn ≠ "" → chosenProvisionedProductName ppn name = ppn := by
  refine ⟨?_, ?_, ?_, ?_, ?_⟩
  · show (name.data.map sanitizeChar).length = name.length
    rw [List.length_map]
    rfl
  · intro i
    show (name.data.map sanitizeChar).get? i = _
    simp only [List.get?_eq_getElem?, List.getElem?_map]
    rfl
  · show (⟨(name.data.map sanitizeChar).map sanitizeChar⟩ : String) = _
    rw [List.map_map,
      List.map_congr_left fun a _ => show (sanitizeChar ∘ sanitizeChar) a = sanitizeChar a from
        sanitizeChar_idem a]
    rfl
  · simp [chosenProvisionedProductName]
  · intro ppn hppn
    simp [chosenProvisionedProductName, hppn]

/-- Witness for C10 at the spec's own example input. -/
theorem sanitizeProductName_spec_witness :
    sanitizeProductName (sanitizeProductName "My Co. Sandbox!") =
      sanitizeProductName "My Co. Sandbox!" :=
  (sanitizeProductName_spec "My Co. Sandbox!" (by decide)).2.2.1

/-- Claim C5: on a previously-established resource (`IsNewResource` false), a
resource-not-found answer from `DescribeProvisionedProduct` makes Read clear
the stored identifier and return with no error; on a freshly created resource
the same answer is surfaced as an error. -/
theorem readHead_drift_spec (currentId : String) :
    readHead false currentId (Except.error AwsError.resourceNotFound) = ⟨"", none, none⟩ ∧
    readHead true currentId (Except.error AwsError.resourceNotFound) =
      ⟨currentId,
        some "error reading configuration of provisioned product: ResourceNotFoundException",
        none⟩ := by
  constructor
  · simp [readHead]
  · simp [readHead, AwsError.render]

/-- Witness for C5 at a concrete stored identifier. -/
theorem readHead_drift_spec_witness :
    readHead false "pp-123" (Except.error AwsError.resourceNotFound) = ⟨"", none, none⟩ :=
  (readHead_drift_spec "pp-123").1

/-- Counterexample to claim C7: with exactly one product and TWO artifacts
flagged active, resolution does not fail — it succeeds with the first active
artifact's id — so "the number of artifacts flagged active is not exactly one"
is not a failure condition. -/
theorem findProduct_two_active_cex :
    findServiceCatalogAccountProductId (Except.ok [⟨"prod-1"⟩])
        (Except.ok [⟨"pa-1", some true⟩, ⟨"pa-2", some true⟩]) =
      Except.ok ("prod-1", "pa-1") ∧
    (([⟨"pa-1", some true⟩, ⟨"pa-2", some true⟩] :
        List ProvisioningArtifactDetail).filter fun a => a.active = some true).length = 2 :=
  ⟨rfl, rfl⟩

/-- Claim C7 as amended: resolution fails if and only if the product search
returns a number of products different from one or NO artifact is flagged
active; with exactly one product it succeeds whenever some artifact is
flagged active, returning the first such artifact's id (in particular the
unique active artifact's id when exactly one is active). -/
theorem findProduct_resolution_spec
    (products : List ProductViewSummary) (artifacts : List ProvisioningArtifactDetail)
    (p : ProductViewSummary) (a : ProvisioningArtifactDetail)
    (hp : products = [p])
    (ha : artifacts.find? (fun x => x.active = some true) = some a) :
    findServiceCatalogAccountProductId (Except.ok products) (Except.ok artifacts) =
      Except.ok (p.productId, a.id) ∧
    ∀ (ps : List ProductViewSummary) (as' : List ProvisioningArtifactDetail),
      (∃ e, findServiceCatalogAccountProductId (Except.ok ps) (Except.ok as') =
          Except.error e) ↔
        ps.length ≠ 1 ∨ as'.find? (fun x => x.active = some true) = none := by
  constructor
  · subst hp
    simp [findServiceCatalogAccountProductId, ha]
  · intro ps as'
    match ps with
    | [] => simp [findServiceCatalogAccountProductId]
    | [q] =>
      match hfind : as'.find? (fun x => x.active = some true) with
      | some b => simp [findServiceCatalogAccountProductId, hfind]
      | none => simp [findServiceCatalogAccountProductId, hfind]
    | q1 :: q2 :: qs =>
      simp only [findServiceCatalogAccountProductId]
      constructor
      · intro _
        left
        simp only [List.length_cons]
        omega
      · intro _
        exact ⟨_, rfl⟩

/-- Witness for C7 (amended) at a one-product, one-active-artifact input. -/
theorem findProduct_resolution_spec_witness :
    findServiceCatalogAccountProductId (Except.ok [⟨"prod-1"⟩])
        (Except.ok [⟨"pa-old", some false⟩, ⟨"pa-new", some true⟩]) =
      Except.ok ("prod-1", "pa-new") :=
  (findProduct_resolution_spec [⟨"prod-1"⟩] [⟨"pa-old", some false⟩, ⟨"pa-new", some true⟩]
    ⟨"prod-1"⟩ ⟨"pa-new", some true⟩ rfl (by decide)).1

/-- Counterexample to claim C8: a record whose outputs lack an `AccountId`
key.  Read's extraction guard returns nil diagnostics (an early success, not
an error), and Create completes with no error as well — its tagging loop
simply never fires (the supplied tagging outcome is an error, yet the result
carries no diagnostics, showing no tag call was even attempted). -/
theorem missing_accountId_no_error_cex :
    readAfterExtraction [⟨"AccountEmail", "admin@example.com"⟩] = (none, false) ∧
    createResult (Except.ok "pp-1") "acct" [Except.ok noAccountIdRecord]
        (Except.error "tag transport down") =
      some ⟨some "pp-1", none⟩ := by
  decide

/-- `extractOutputs` leaves `accountId` at the initial accumulator's value
when no output key is `AccountId`. -/
lemma extractOutputs_accountId_of_no_key (outputs : List RecordOutput)
    (h : ∀ o ∈ outputs, o.outputKey ≠ "AccountId") :
    (extractOutputs outputs).accountId = "" := by
  suffices H : ∀ acc : ReadExtraction,
      (outputs.foldl
        (fun acc o =>
          if o.outputKey = "AccountEmail" then { acc with email := some o.outputValue }
          else if o.outputKey = "AccountId" then { acc with accountId := o.outputValue }
          else if o.outputKey = "SSOUserEmail" then { acc with ssoEmail := some o.outputValue }
          else acc)
        acc).accountId = acc.accountId by
    exact H ⟨"", none, none⟩
  induction outputs with
  | nil => intro acc; rfl
  | cons o rest ih =>
    intro acc
    have ho : o.outputKey ≠ "AccountId" := h o (List.mem_cons_self o rest)
    have hrest : ∀ o2 ∈ rest, o2.outputKey ≠ "AccountId" :=
      fun o2 hm => h o2 (List.mem_cons_of_mem o hm)
    simp only [List.foldl_cons]
    by_cases h1 : o.outputKey = "AccountEmail"
    · rw [if_pos h1]
      exact ih hrest _
    · rw [if_neg h1, if_neg ho]
      by_cases h3 : o.outputKey = "SSOUserEmail"
      · rw [if_pos h3]
        exact ih hrest _
      · rw [if_neg h3]
        exact ih hrest _

/-- Claim C8 as amended: when a record's outputs contain no `AccountId` key,
Read exits early with nil diagnostics (a silent success with partial state,
skipping the directory lookups), and a Create whose poll succeeds with such a
record likewise completes with no error, never attempting the tag call. -/
theorem missing_accountId_soft_exit (outputs : List RecordOutput)
    (h : ∀ o ∈ outputs, o.outputKey ≠ "AccountId") :
    readAfterExtraction outputs = (none, false) ∧
    ∀ (ppId name : String) (errs : List RecordError) (tagRes : Except String Unit),
      createResult (Except.ok ppId) name
          [Except.ok ⟨⟨RecordStatus.succeeded, errs⟩, outputs⟩] tagRes =
        some ⟨some ppId, none⟩ := by
  have hacc := extractOutputs_accountId_of_no_key outputs h
  constructor
  · simp [readAfterExtraction, hacc]
  · intro ppId name errs tagRes
    have hfil : outputs.filter (fun o => o.outputKey = "AccountId") = [] := by
      simp only [List.filter_eq_nil_iff]
      intro o hm
      simpa using h o hm
    simp [createResult, waitForProvisioning, createTagPhase, hfil]

/-- Witness for C8 (amended) at a concrete output list. -/
theorem missing_accountId_soft_exit_witness :
    readAfterExtraction [⟨"SSOUserEmail", "sso@example.com"⟩] = (none, false) :=
  (missing_accountId_soft_exit [⟨"SSOUserEmail", "sso@example.com"⟩] (by decide)).1

/-- A non-terminal status is neither `Succeeded` nor `Failed`. -/
lemma status_not_terminal {s : RecordStatus} (h : s.isTerminal = false) :
    s ≠ RecordStatus.succeeded ∧ s ≠ RecordStatus.failed := by
  cases s <;> simp_all [RecordStatus.isTerminal]

/-- Claim C1: on a fetched-status sequence whose first terminal record sits
after `n` pending records, the poller performs exactly `n + 1` fetches and
exits there: returning the full record on `Succeeded`; failing on `Failed`
with the first listed error description when the error list is non-empty and
with the generic message naming the account otherwise.  On a sequence of
pending records only, it never exits. -/
theorem waitForProvisioning_terminal_spec (name : String)
    (pending : List DescribeRecordOutput) (t : DescribeRecordOutput)
    (rest : List FetchOutcome)
    (hp : ∀ r ∈ pending, r.recordDetail.status.isTerminal = false)
    (ht : t.recordDetail.status.isTerminal = true) :
    (t.recordDetail.status = RecordStatus.succeeded →
      waitForProvisioning name (pending.map Except.ok ++ Except.ok t :: rest) =
        some (pending.length + 1, PollResult.success t)) ∧
    (∀ e es, t.recordDetail.status = RecordStatus.failed →
      t.recordDetail.recordErrors = e :: es →
      waitForProvisioning name (pending.map Except.ok ++ Except.ok t :: rest) =
        some (pending.length + 1, PollResult.provisioningFailed
          ("provisioning account " ++ name ++ " failed: " ++ e.description))) ∧
    (t.recordDetail.status = RecordStatus.failed →
      t.recordDetail.recordErrors = [] →
      waitForProvisioning name (pending.map Except.ok ++ Except.ok t :: rest) =
        some (pending.length + 1, PollResult.provisioningFailed
          ("provisioning account " ++ name ++ " failed with unknown error"))) ∧
    waitForProvisioning name (pending.map Except.ok) = none := by
  induction pending with
  | nil =>
    refine ⟨?_, ?_, ?_, rfl⟩
    · intro h
      simp [waitForProvisioning, h]
    · intro e es h he
      simp [waitForProvisioning, h, he]
    · intro h he
      simp [waitForProvisioning, h, he]
  | cons r ps ih =>
    have hr := status_not_terminal (hp r (List.mem_cons_self r ps))
    have ihh := ih fun x hx => hp x (List.mem_cons_of_mem r hx)
    refine ⟨?_, ?_, ?_, ?_⟩
    · intro h
      simp [waitForProvisioning, hr.1, hr.2, ihh.1 h]
    · intro e es h he
      simp [waitForProvisioning, hr.1, hr.2, ihh.2.1 e es h he]
    · intro h he
      simp [waitForProvisioning, hr.1, hr.2, ihh.2.2.1 h he]
    · simp [waitForProvisioning, hr.1, hr.2, ihh.2.2.2]

/-- Witness for C1: the spec's example sequences.  Three fetches on
`[Pending, Pending, Succeeded]`; the `[Pending, Failed]` case is covered by
the amended-free theorem applied at `failedQuotaRecord`. -/
theorem waitForProvisioning_terminal_spec_witness :
    waitForProvisioning "acct"
        [Except.ok pendingRecord, Except.ok pendingRecord, Except.ok succeededRecord] =
      some (3, PollResult.success succeededRecord) :=
  (waitForProvisioning_terminal_spec "acct" [pendingRecord, pendingRecord]
    succeededRecord [] (by decide) (by decide)).1 rfl

/-- Counterexample to claim C3: when the caller's cancellation signal fires,
the SDK's `DescribeRecord` surfaces the context error as an ordinary call
error, and the poller exits through the same generic transport wrap it uses
for any fetch failure (`"error reading provisioning status of account …"`).
There is no timeout-classified outcome: the cancellation result is
indistinguishable in form from a plain transport failure. -/
theorem poller_cancellation_cex :
    waitForProvisioning "acct" [Except.error "context deadline exceeded"] =
      some (1, PollResult.fetchError
        "error reading provisioning status of account acct: context deadline exceeded") ∧
    waitForProvisioning "acct" [Except.error "connection refused"] =
      some (1, PollResult.fetchError
        "error reading provisioning status of account acct: connection refused") :=
  ⟨rfl, rfl⟩

/-- Claim C3 as amended: the poller performs no cancellation check of its
own before waiting; a firing cancellation signal reaches it only as an error
of the next `DescribeRecord` call, and the poller then exits through the
generic transport-error wrap (not a distinct timeout classification), after
exactly `k + 1` fetches when `k` pending records preceded it. -/
theorem waitForProvisioning_cancelled_generic_wrap (name e : String)
    (pending : List DescribeRecordOutput) (rest : List FetchOutcome)
    (hp : ∀ r ∈ pending, r.recordDetail.status.isTerminal = false) :
    waitForProvisioning name (pending.map Except.ok ++ Except.error e :: rest) =
      some (pending.length + 1, PollResult.fetchError
        ("error reading provisioning status of account " ++ name ++ ": " ++ e)) := by
  induction pending with
  | nil => rfl
  | cons r ps ih =>
    have hr := status_not_terminal (hp r (List.mem_cons_self r ps))
    have ihh := ih fun x hx => hp x (List.mem_cons_of_mem r hx)
    simp [waitForProvisioning, hr.1, hr.2, ihh]

/-- Witness for C3 (amended): cancellation firing after one pending fetch. -/
theorem waitForProvisioning_cancelled_generic_wrap_witness :
    waitForProvisioning "acct"
        [Except.ok pendingRecord, Except.error "context canceled"] =
      some (2, PollResult.fetchError
        "error reading provisioning status of account acct: context canceled") :=
  waitForProvisioning_cancelled_generic_wrap "acct" "context canceled"
    [pendingRecord] [] (by decide)

/-! ### Lemmas on the association-list tag-map model -/

lemma lookupTag_eq_none_of (l : List (String × String)) (k : String)
    (h : ∀ kv ∈ l, kv.1 ≠ k) : lookupTag l k = none := by
  induction l with
  | nil => rfl
  | cons kv rest ih =>
    have hk : kv.1 ≠ k := h kv (List.mem_cons_self kv rest)
    simp only [lookupTag, if_neg hk]
    exact ih fun x hx => h x (List.mem_cons_of_mem kv hx)

lemma lookupTag_append (l₁ l₂ : List (String × String)) (k : String) :
    lookupTag (l₁ ++ l₂) k =
      match lookupTag l₁ k with
      | some v => some v
      | none => lookupTag l₂ k := by
  induction l₁ with
  | nil => rfl
  | cons kv rest ih =>
    by_cases hk : kv.1 = k
    · simp [lookupTag, hk]
    · simp only [List.cons_append, lookupTag, if_neg hk]
      exact ih

lemma mem_of_lookupTag (l : List (String × String)) (k v : String)
    (h : lookupTag l k = some v) : (k, v) ∈ l := by
  induction l with
  | nil => simp [lookupTag] at h
  | cons kv rest ih =>
    by_cases hk : kv.1 = k
    · simp only [lookupTag, if_pos hk] at h
      obtain rfl : kv.2 = v := Option.some.inj h
      subst hk
      exact List.mem_cons_self kv rest
    · simp only [lookupTag, if_neg hk] at h
      exact List.mem_cons_of_mem kv (ih h)

lemma lookupTag_of_mem (l : List (String × String)) (k v : String)
    (hnd : (l.map Prod.fst).Nodup) (h : (k, v) ∈ l) : lookupTag l k = some v := by
  induction l with
  | nil => simp at h
  | cons kv rest ih =>
    rcases List.mem_cons.mp h with h1 | h1
    · rw [← h1]
      simp [lookupTag]
    · have hk : kv.1 ≠ k := by
        intro he
        have : kv.1 ∈ rest.map Prod.fst :=
          List.mem_map.mpr ⟨(k, v), h1, by rw [he]⟩
        exact (List.nodup_cons.mp hnd).1 this
      simp only [lookupTag, if_neg hk]
      exact ih (List.nodup_cons.mp hnd).2 h1

lemma lookupTag_some_exists (l : List (String × String)) (kv : String × String)
    (h : kv ∈ l) : ∃ v, lookupTag l kv.1 = some v := by
  induction l with
  | nil => simp at h
  | cons kv2 rest ih =>
    by_cases hk : kv2.1 = kv.1
    · exact ⟨kv2.2, by simp [lookupTag, hk]⟩
    · rcases List.mem_cons.mp h with h1 | h1
      · exact absurd (congrArg Prod.fst h1.symm) hk
      · obtain ⟨v, hv⟩ := ih h1
        exact ⟨v, by simp only [lookupTag, if_neg hk]; exact hv⟩

/-- Looking a key up in a filtered map, when keys are pairwise distinct:
the original binding survives exactly when it satisfies the predicate. -/
lemma lookupTag_filter (l : List (String × String)) (p : String × String → Bool)
    (k : String) (hnd : (l.map Prod.fst).Nodup) :
    lookupTag (l.filter p) k =
      match lookupTag l k with
      | none => none
      | some v => if p (k, v) then some v else none := by
  induction l with
  | nil => rfl
  | cons kv rest ih =>
    have hnd' := (List.nodup_cons.mp hnd).2
    have hnotin := (List.nodup_cons.mp hnd).1
    by_cases hk : kv.1 = k
    · have hrest : lookupTag (rest.filter p) k = none := by
        refine lookupTag_eq_none_of _ _ fun x hx => ?_
        intro hxk
        refine hnotin (List.mem_map.mpr ⟨x, List.mem_of_mem_filter hx, ?_⟩)
        rw [hxk, hk]
      have hkv : (kv.1, kv.2) = (k, kv.2) := by rw [hk]
      by_cases hp : p kv
      · rw [List.filter_cons_of_pos hp]
        simp only [lookupTag, if_pos hk]
        have : p (k, kv.2) = true := by rw [← hkv]; exact hp
        rw [this]
        simp
      · rw [List.filter_cons_of_neg (by simpa using hp)]
        simp only [lookupTag, if_pos hk]
        have : p (k, kv.2) = false := by rw [← hkv]; simpa using hp
        rw [this, hrest]
        simp
    · have tailEq := ih hnd'
      by_cases hp : p kv
      · rw [List.filter_cons_of_pos hp]
        simp only [lookupTag, if_neg hk]
        exact tailEq
      · rw [List.filter_cons_of_neg (by simpa using hp)]
        simp only [lookupTag, if_neg hk]
        exact tailEq

/-- Key membership in the untag key set `keys(removedTags old new)`. -/
lemma mem_removedKeys_iff (old new : List (String × String)) (k : String) :
    k ∈ (removedTags old new).map Prod.fst ↔
      (∃ v, (k, v) ∈ old) ∧ lookupTag new k = none := by
  constructor
  · intro h
    obtain ⟨kv, hkv, hfst⟩ := List.mem_map.mp h
    have := List.mem_filter.mp hkv
    refine ⟨⟨kv.2, ?_⟩, ?_⟩
    · rw [← hfst]
      exact this.1
    · rw [← hfst]
      simpa using this.2
  · rintro ⟨⟨v, hv⟩, hnone⟩
    refine List.mem_map.mpr ⟨(k, v), List.mem_filter.mpr ⟨hv, by simpa using hnone⟩, rfl⟩

/-- Claim C4: tag-reconciliation round trip.  For maps with pairwise-distinct
keys, removing `keys(removedTags old new)` from `old` and then overwriting
with the entries of `updatedTags old new` yields a map extensionally equal to
`new`; and on identical old/new maps both diffs are empty, so
`updateAccountTags` issues zero remote calls. -/
theorem tag_reconciliation_round_trip (old new : List (String × String))
    (hold : (old.map Prod.fst).Nodup) (hnew : (new.map Prod.fst).Nodup) :
    (∀ k, lookupTag (applyTagDiff old new) k = lookupTag new k) ∧
    removedTags old old = [] ∧ updatedTags old old = [] ∧
    updateAccountTagsCallCount old old = 0 := by
  have removed_old : removedTags old old = [] := by
    simp only [removedTags, List.filter_eq_nil_iff]
    intro kv hm
    obtain ⟨v, hv⟩ := lookupTag_some_exists old kv hm
    simp [hv]
  have updated_old : updatedTags old old = [] := by
    simp only [updatedTags, List.filter_eq_nil_iff]
    intro kv hm
    have : lookupTag old kv.1 = some kv.2 := lookupTag_of_mem old kv.1 kv.2 hold hm
    simp [this]
  refine ⟨?_, removed_old, updated_old, ?_⟩
  · intro k
    have hnd_er : ((eraseTagKeys old ((removedTags old new).map Prod.fst)).map Prod.fst).Nodup :=
      ((List.filter_sublist old).map Prod.fst).nodup hold
    have h_upd := lookupTag_filter new (fun kv => lookupTag old kv.1 ≠ some kv.2) k hnew
    have h_er :=
      lookupTag_filter old
        (fun kv => ¬ ((removedTags old new).map Prod.fst).contains kv.1) k hold
    have h_q :=
      lookupTag_filter (eraseTagKeys old ((removedTags old new).map Prod.fst))
        (fun kv => lookupTag (updatedTags old new) kv.1 = none) k hnd_er
    show lookupTag
        (updatedTags old new ++
          (eraseTagKeys old ((removedTags old new).map Prod.fst)).filter
            (fun kv => lookupTag (updatedTags old new) kv.1 = none)) k =
      lookupTag new k
    rw [lookupTag_append, h_q]
    match hn : lookupTag new k with
    | none =>
      have hu : lookupTag (updatedTags old new) k = none := by
        rw [hn] at h_upd
        exact h_upd
      match ho : lookupTag old k with
      | none =>
        have he : lookupTag (eraseTagKeys old ((removedTags old new).map Prod.fst)) k =
            none := by
          rw [ho] at h_er
          exact h_er
        rw [hu, he]
      | some w =>
        have hk_rem : k ∈ (removedTags old new).map Prod.fst :=
          (mem_removedKeys_iff old new k).mpr ⟨⟨w, mem_of_lookupTag old k w ho⟩, hn⟩
        have he : lookupTag (eraseTagKeys old ((removedTags old new).map Prod.fst)) k =
            none := by
          rw [ho] at h_er
          simpa [eraseTagKeys, hk_rem] using h_er
        rw [hu, he]
    | some v =>
      match ho : lookupTag old k with
      | none =>
        have hu : lookupTag (updatedTags old new) k = some v := by
          rw [hn] at h_upd
          simpa [updatedTags, ho] using h_upd
        rw [hu]
      | some w =>
        by_cases hvw : w = v
        · subst hvw
          have hu : lookupTag (updatedTags old new) k = none := by
            rw [hn] at h_upd
            simpa [updatedTags, ho] using h_upd
          have hk_not_rem : k ∉ (removedTags old new).map Prod.fst := by
            intro hmem
            have h2 := ((mem_removedKeys_iff old new k).mp hmem).2
            rw [hn] at h2
            exact Option.noConfusion h2
          have he : lookupTag (eraseTagKeys old ((removedTags old new).map Prod.fst)) k =
              some w := by
            rw [ho] at h_er
            simpa [eraseTagKeys, hk_not_rem] using h_er
          rw [hu, he]
          simp [hu]
        · have hu : lookupTag (updatedTags old new) k = some v := by
            rw [hn] at h_upd
            simpa [updatedTags, ho, hvw] using h_upd
          rw [hu]
  · rw [updateAccountTagsCallCount, removed_old, updated_old]
    simp

/-- Witness for C4 at the spec's example maps
`old = {a:1, b:2}`, `new = {b:2, c:3}`. -/
theorem tag_reconciliation_round_trip_witness :
    lookupTag (applyTagDiff [("a", "1"), ("b", "2")] [("b", "2"), ("c", "3")]) "c" =
      lookupTag [("b", "2"), ("c", "3")] "c" :=
  (tag_reconciliation_round_trip [("a", "1"), ("b", "2")] [("b", "2"), ("c", "3")]
    (by decide) (by decide)).1 "c"

/-! ### Lemmas on event traces -/

/-- The poll loop emits only fetch and sleep events. -/
lemma pollEvents_mem (fetches : List FetchOutcome) :
    ∀ ev ∈ pollEvents fetches, ev = Event.fetch ∨ ev = Event.sleep := by
  induction fetches with
  | nil =>
    intro ev h
    simp [pollEvents] at h
  | cons f rest ih =>
    intro ev h
    simp only [pollEvents] at h
    rcases List.mem_cons.mp h with h1 | h1
    · exact Or.inl h1
    · match f with
      | .error e => simp at h1
      | .ok r =>
        by_cases hs : r.recordDetail.status = RecordStatus.succeeded
        · simp [hs] at h1
        · by_cases hf : r.recordDetail.status = RecordStatus.failed
          · simp [hs, hf] at h1
          · simp only [if_neg hs, if_neg hf] at h1
            rcases List.mem_cons.mp h1 with h2 | h2
            · exact Or.inr h2
            · exact ih ev h2

/-- The deferred unlock is never emitted inside the poll loop. -/
lemma unlock_not_mem_pollEvents (fetches : List FetchOutcome) :
    Event.unlock ∉ pollEvents fetches := by
  intro h
  rcases pollEvents_mem fetches Event.unlock h with h1 | h1 <;> exact Event.noConfusion h1

/-- The create tagging phase emits at most one tag call. -/
lemma createTagPhase_events (r : DescribeRecordOutput) (tagRes : Except String Unit) :
    (createTagPhase r tagRes).1 = [] ∨ (createTagPhase r tagRes).1 = [Event.tagCall] := by
  unfold createTagPhase
  split
  · exact Or.inl rfl
  · split
    · exact Or.inr rfl
    · exact Or.inr rfl

/-- The compensation blocks emit only directory calls. -/
lemma deleteCompensation_mem (ouId : String) (closeFlag : Bool) (accountId : String)
    (provisioned : Bool) (fr : Except String String) (mv cl : Except String Unit) :
    ∀ ev ∈ (deleteCompensation ouId closeFlag accountId provisioned fr mv cl).1,
      ev = Event.findRootCall ∨ ev = Event.moveCall ∨ ev = Event.closeCall := by
  intro ev h
  unfold deleteCompensation deleteMoveStep deleteCloseStep at h
  by_cases hm : ouId ≠ "" ∧ accountId ≠ "" ∧ provisioned
  · rw [if_pos hm] at h
    match fr with
    | .error e =>
      simp at h
      simp [h]
    | .ok rootId =>
      match mv with
      | .error e =>
        simp at h
        rcases h with h | h <;> simp [h]
      | .ok _ =>
        by_cases hc : (closeFlag = true) ∧ accountId ≠ "" ∧ provisioned
        · rw [if_pos hc] at h
          match cl with
          | .error e =>
            simp at h
            rcases h with h | h | h <;> simp [h]
          | .ok _ =>
            simp at h
            rcases h with h | h | h <;> simp [h]
        · rw [if_neg hc] at h
          simp at h
          rcases h with h | h <;> simp [h]
  · rw [if_neg hm] at h
    by_cases hc : (closeFlag = true) ∧ accountId ≠ "" ∧ provisioned
    · rw [if_pos hc] at h
      match cl with
      | .error e =>
        simp at h
        simp [h]
      | .ok _ =>
        simp at h
        simp [h]
    · rw [if_neg hc] at h
      simp at h

/-- The poll events sit inside any surrounding critical-section slice. -/
lemma pollEvents_sublist_scope (pre post : List Event) (fetches : List FetchOutcome) :
    List.Sublist (pollEvents fetches) (pre ++ pollEvents fetches ++ post) := by
  have h1 : List.Sublist (pollEvents fetches) (pollEvents fetches ++ post) :=
    List.sublist_append_left _ _
  have h2 : List.Sublist (pollEvents fetches ++ post) (pre ++ (pollEvents fetches ++ post)) :=
    List.sublist_append_right _ _
  simpa [List.append_assoc] using h1.trans h2

/-- No unlock inside a critical-section slice built from unlock-free parts. -/
lemma unlock_not_mem_scope (pre post : List Event) (fetches : List FetchOutcome)
    (hpre : Event.unlock ∉ pre) (hpost : Event.unlock ∉ post) :
    Event.unlock ∉ pre ++ pollEvents fetches ++ post := by
  intro h
  rcases List.mem_append.mp h with h1 | h1
  · rcases List.mem_append.mp h1 with h2 | h2
    · exact hpre h2
    · exact unlock_not_mem_pollEvents fetches h2
  · exact hpost h1

/-- Counterexample to claim C2: a concrete Create run (provision succeeds,
one pending poll then success).  The full trace shows the mutex acquired at
index 1, a poll wait (sleep) at index 5, and the single unlock only at the
very end (the deferred `accountMutex.Unlock()` runs at function return,
after polling) — so the lock IS held during the poll wait, and is not
released before the polling loop begins. -/
theorem create_lock_held_during_poll_cex :
    createEvents (Except.ok ()) (Except.ok "pp-1") "acct"
        [Except.ok pendingRecord, Except.ok succeededRecord] (Except.ok ()) =
      [Event.resolveCall, Event.lock, Event.provisionCall, Event.setId,
        Event.fetch, Event.sleep, Event.fetch, Event.tagCall, Event.readCall,
        Event.unlock] ∧
    (createEvents (Except.ok ()) (Except.ok "pp-1") "acct"
        [Except.ok pendingRecord, Except.ok succeededRecord] (Except.ok ())).indexOf
        Event.lock = 1 ∧
    (createEvents (Except.ok ()) (Except.ok "pp-1") "acct"
        [Except.ok pendingRecord, Except.ok succeededRecord] (Except.ok ())).indexOf
        Event.sleep = 5 ∧
    (createEvents (Except.ok ()) (Except.ok "pp-1") "acct"
        [Except.ok pendingRecord, Except.ok succeededRecord] (Except.ok ())).indexOf
        Event.unlock = 9 := by
  refine ⟨rfl, ?_, ?_, ?_⟩ <;> rfl

/-- Claim C2 as amended: in Create, Update (reprovisioning branch) and
Delete, the process-wide mutex is acquired before the mutating catalog call
and — because the unlock is deferred — released only when the operation
function returns: the entire poll loop, including every poll wait, runs
inside the critical section.  Each trace decomposes as
`prefix ++ [lock, mutating-call] ++ b ++ [unlock]` with the whole poll-event
sequence inside `b` and no unlock before the final one. -/
theorem mutex_scope_spans_polling (name pp : String) (fetches : List FetchOutcome)
    (n : Nat) (res : PollResult) (tagRes : Except String Unit)
    (tagsChanged ssoChanged provisioned closeFlag : Bool) (ouId accountId : String)
    (findRootRes : Except String String) (moveRes closeRes : Except String Unit)
    (hpoll : waitForProvisioning name fetches = some (n, res)) :
    (∃ b, createEvents (Except.ok ()) (Except.ok pp) name fetches tagRes =
        [Event.resolveCall, Event.lock, Event.provisionCall] ++ b ++ [Event.unlock] ∧
      List.Sublist (pollEvents fetches) b ∧ Event.unlock ∉ b) ∧
    (∃ b, updateEvents true (Except.ok ()) (Except.ok pp) name fetches
          tagsChanged ssoChanged =
        [Event.resolveCall, Event.lock, Event.reprovisionCall] ++ b ++ [Event.unlock] ∧
      List.Sublist (pollEvents fetches) b ∧ Event.unlock ∉ b) ∧
    (∃ b, deleteEvents (Except.ok provisioned) (Except.ok pp) name fetches
          ouId closeFlag accountId findRootRes moveRes closeRes =
        [Event.describeCall, Event.lock, Event.terminateCall] ++ b ++ [Event.unlock] ∧
      List.Sublist (pollEvents fetches) b ∧ Event.unlock ∉ b) := by
  refine ⟨?_, ?_, ?_⟩
  · -- Create
    match res with
    | PollResult.success r =>
      have htp := createTagPhase_events r tagRes
      match htp2 : (createTagPhase r tagRes).2 with
      | some m =>
        refine ⟨[Event.setId] ++ pollEvents fetches ++ (createTagPhase r tagRes).1,
          ?_, pollEvents_sublist_scope _ _ _, ?_⟩
        · simp [createEvents, hpoll, htp2, List.append_assoc]
        · refine unlock_not_mem_scope _ _ _ (by simp) ?_
          rcases htp with h | h <;> simp [h]
      | none =>
        refine ⟨[Event.setId] ++ pollEvents fetches ++
            ((createTagPhase r tagRes).1 ++ [Event.readCall]),
          ?_, pollEvents_sublist_scope _ _ _, ?_⟩
        · simp [createEvents, hpoll, htp2, List.append_assoc]
        · refine unlock_not_mem_scope _ _ _ (by simp) ?_
          rcases htp with h | h <;> simp [h]
    | PollResult.provisioningFailed m =>
      refine ⟨[Event.setId] ++ pollEvents fetches ++ [],
        ?_, pollEvents_sublist_scope _ _ _,
        unlock_not_mem_scope _ _ _ (by simp) (by simp)⟩
      simp [createEvents, hpoll, List.append_assoc]
    | PollResult.fetchError m =>
      refine ⟨[Event.setId] ++ pollEvents fetches ++ [],
        ?_, pollEvents_sublist_scope _ _ _,
        unlock_not_mem_scope _ _ _ (by simp) (by simp)⟩
      simp [createEvents, hpoll, List.append_assoc]
  · -- Update, reprovisioning branch
    match res with
    | PollResult.success r =>
      refine ⟨[] ++ pollEvents fetches ++
          ((if tagsChanged then [Event.tagCall] else []) ++
            (if ssoChanged then [Event.assignCall] else []) ++ [Event.readCall]),
        ?_, pollEvents_sublist_scope _ _ _, ?_⟩
      · simp [updateEvents, hpoll, List.append_assoc]
      · refine unlock_not_mem_scope _ _ _ (by simp) ?_
        intro h
        rcases List.mem_append.mp h with h1 | h1
        · rcases List.mem_append.mp h1 with h2 | h2
          · by_cases ht : tagsChanged <;> simp [ht] at h2
          · by_cases hs : ssoChanged <;> simp [hs] at h2
        · simp at h1
    | PollResult.provisioningFailed m =>
      refine ⟨[] ++ pollEvents fetches ++ [],
        ?_, pollEvents_sublist_scope _ _ _,
        unlock_not_mem_scope _ _ _ (by simp) (by simp)⟩
      simp [updateEvents, hpoll, List.append_assoc]
    | PollResult.fetchError m =>
      refine ⟨[] ++ pollEvents fetches ++ [],
        ?_, pollEvents_sublist_scope _ _ _,
        unlock_not_mem_scope _ _ _ (by simp) (by simp)⟩
      simp [updateEvents, hpoll, List.append_assoc]
  · -- Delete
    match res with
    | PollResult.success r =>
      refine ⟨[] ++ pollEvents fetches ++
          (deleteCompensation ouId closeFlag accountId provisioned
            findRootRes moveRes closeRes).1,
        ?_, pollEvents_sublist_scope _ _ _, ?_⟩
      · simp [deleteEvents, hpoll, List.append_assoc]
      · refine unlock_not_mem_scope _ _ _ (by simp) ?_
        intro h
        rcases deleteCompensation_mem ouId closeFlag accountId provisioned
          findRootRes moveRes closeRes Event.unlock h with h1 | h1 | h1 <;>
          exact Event.noConfusion h1
    | PollResult.provisioningFailed m =>
      refine ⟨[] ++ pollEvents fetches ++ [],
        ?_, pollEvents_sublist_scope _ _ _,
        unlock_not_mem_scope _ _ _ (by simp) (by simp)⟩
      simp [deleteEvents, hpoll, List.append_assoc]
    | PollResult.fetchError m =>
      refine ⟨[] ++ pollEvents fetches ++ [],
        ?_, pollEvents_sublist_scope _ _ _,
        unlock_not_mem_scope _ _ _ (by simp) (by simp)⟩
      simp [deleteEvents, hpoll, List.append_assoc]

/-- Witness for C2 (amended) at a concrete run. -/
theorem mutex_scope_spans_polling_witness :
    ∃ b, createEvents (Except.ok ()) (Except.ok "pp-1") "acct"
        [Except.ok pendingRecord, Except.ok succeededRecord] (Except.ok ()) =
      [Event.resolveCall, Event.lock, Event.provisionCall] ++ b ++ [Event.unlock] ∧
      List.Sublist (pollEvents [Except.ok pendingRecord, Except.ok succeededRecord]) b ∧
      Event.unlock ∉ b :=
  (mutex_scope_spans_polling "acct" "pp-1"
    [Except.ok pendingRecord, Except.ok succeededRecord] 2
    (PollResult.success succeededRecord) (Except.ok ()) false false false false
    "" "" (Except.ok "") (Except.ok ()) (Except.ok ()) (by decide)).1

/-- Claim C6: when the provision call returns successfully, Create assigns
the external identifier from the immediate response (`d.SetId`) before any
poll event; and whatever the poll outcome — including a poll failure or a
fetch error — the operation's result retains that identifier (it is never
cleared on an error path), with the poll failure surfaced as the error. -/
theorem create_identifier_retained (pp name : String) (fetches : List FetchOutcome)
    (tagRes : Except String Unit) (n : Nat) (res : PollResult)
    (hpoll : waitForProvisioning name fetches = some (n, res)) :
    (∃ t, createEvents (Except.ok ()) (Except.ok pp) name fetches tagRes =
        [Event.resolveCall, Event.lock, Event.provisionCall, Event.setId] ++
          pollEvents fetches ++ t) ∧
    (∃ out, createResult (Except.ok pp) name fetches tagRes = some out ∧
      out.finalId = some pp) ∧
    (∀ m, res = PollResult.provisioningFailed m →
      createResult (Except.ok pp) name fetches tagRes = some ⟨some pp, some m⟩) ∧
    (∀ m, res = PollResult.fetchError m →
      createResult (Except.ok pp) name fetches tagRes = some ⟨some pp, some m⟩) := by
  refine ⟨?_, ?_, ?_, ?_⟩
  · match res with
    | PollResult.success r =>
      refine ⟨(createTagPhase r tagRes).1 ++
          (match (createTagPhase r tagRes).2 with
           | some _ => [Event.unlock]
           | none => [Event.readCall, Event.unlock]), ?_⟩
      simp [createEvents, hpoll, List.append_assoc]
    | PollResult.provisioningFailed m =>
      refine ⟨[Event.unlock], ?_⟩
      simp [createEvents, hpoll, List.append_assoc]
    | PollResult.fetchError m =>
      refine ⟨[Event.unlock], ?_⟩
      simp [createEvents, hpoll, List.append_assoc]
  · match res with
    | PollResult.success r =>
      exact ⟨⟨some pp, (createTagPhase r tagRes).2⟩, by simp [createResult, hpoll], rfl⟩
    | PollResult.provisioningFailed m =>
      exact ⟨⟨some pp, some m⟩, by simp [createResult, hpoll], rfl⟩
    | PollResult.fetchError m =>
      exact ⟨⟨some pp, some m⟩, by simp [createResult, hpoll], rfl⟩
  · intro m hres
    rw [hres] at hpoll
    simp [createResult, hpoll]
  · intro m hres
    rw [hres] at hpoll
    simp [createResult, hpoll]

/-- Witness for C6: a Create whose poll ends in a provisioning failure still
carries the assigned identifier. -/
theorem create_identifier_retained_witness :
    createResult (Except.ok "pp-1") "acct" [Except.ok failedQuotaRecord]
        (Except.ok ()) =
      some ⟨some "pp-1", some "provisioning account acct failed: quota exceeded"⟩ :=
  (create_identifier_retained "pp-1" "acct" [Except.ok failedQuotaRecord]
    (Except.ok ()) 1
    (PollResult.provisioningFailed "provisioning account acct failed: quota exceeded")
    (by decide)).2.2.1 _ rfl

/-! ### Lemmas on the delete compensation steps -/

lemma deleteMoveStep_events (ou acc : String) (pr : Bool)
    (fr : Except String String) (mv : Except String Unit) :
    (deleteMoveStep ou acc pr fr mv).1 = [] ∨
      (deleteMoveStep ou acc pr fr mv).1 = [Event.findRootCall] ∨
      (deleteMoveStep ou acc pr fr mv).1 = [Event.findRootCall, Event.moveCall] := by
  unfold deleteMoveStep
  by_cases hm : ou ≠ "" ∧ acc ≠ "" ∧ pr = true
  · rw [if_pos hm]
    match fr with
    | .error e => exact Or.inr (Or.inl rfl)
    | .ok rootId =>
      match mv with
      | .error e => exact Or.inr (Or.inr rfl)
      | .ok _ => exact Or.inr (Or.inr rfl)
  · rw [if_neg hm]
    exact Or.inl rfl

lemma deleteCloseStep_events (cf : Bool) (acc : String) (pr : Bool)
    (cl : Except String Unit) :
    (deleteCloseStep cf acc pr cl).1 = [] ∨
      (deleteCloseStep cf acc pr cl).1 = [Event.closeCall] := by
  unfold deleteCloseStep
  by_cases hc : cf = true ∧ acc ≠ "" ∧ pr = true
  · rw [if_pos hc]
    match cl with
    | .error e => exact Or.inr rfl
    | .ok _ => exact Or.inr rfl
  · rw [if_neg hc]
    exact Or.inl rfl

lemma deleteMoveStep_gate (ou acc : String) (pr : Bool)
    (fr : Except String String) (mv : Except String Unit)
    (h : Event.moveCall ∈ (deleteMoveStep ou acc pr fr mv).1) :
    ou ≠ "" ∧ acc ≠ "" ∧ pr = true := by
  by_cases hm : ou ≠ "" ∧ acc ≠ "" ∧ pr = true
  · exact hm
  · rw [deleteMoveStep.eq_def, if_neg hm] at h
    simp at h

lemma deleteCloseStep_gate (cf : Bool) (acc : String) (pr : Bool)
    (cl : Except String Unit)
    (h : Event.closeCall ∈ (deleteCloseStep cf acc pr cl).1) :
    cf = true ∧ acc ≠ "" ∧ pr = true := by
  by_cases hc : cf = true ∧ acc ≠ "" ∧ pr = true
  · exact hc
  · rw [deleteCloseStep.eq_def, if_neg hc] at h
    simp at h

lemma closeCall_not_mem_moveStep (ou acc : String) (pr : Bool)
    (fr : Except String String) (mv : Except String Unit) :
    Event.closeCall ∉ (deleteMoveStep ou acc pr fr mv).1 := by
  rcases deleteMoveStep_events ou acc pr fr mv with h | h | h <;> rw [h] <;> simp

lemma moveCall_not_mem_closeStep (cf : Bool) (acc : String) (pr : Bool)
    (cl : Except String Unit) :
    Event.moveCall ∉ (deleteCloseStep cf acc pr cl).1 := by
  rcases deleteCloseStep_events cf acc pr cl with h | h <;> rw [h] <;> simp

/-- Claim C9: with a post-delete OU configured, close-on-delete enabled, an
account id in state and a last-successful provisioning record present, the
move-account call is issued before the close-account call; each compensating
action runs only when the account-exists and successfully-provisioned
conditions (plus its own flag) hold; both call sequences carry any failure
out as the operation's error. -/
theorem delete_move_before_close (ouId accountId rootId : String)
    (houId : ouId ≠ "") (hacct : accountId ≠ "") :
    deleteCompensation ouId true accountId true (Except.ok rootId)
        (Except.ok ()) (Except.ok ()) =
      ([Event.findRootCall, Event.moveCall, Event.closeCall], none) ∧
    (∀ (ou2 : String) (cf2 : Bool) (acc2 : String) (pr2 : Bool)
        (fr : Except String String) (mv cl : Except String Unit),
      Event.moveCall ∈ (deleteCompensation ou2 cf2 acc2 pr2 fr mv cl).1 →
        ou2 ≠ "" ∧ acc2 ≠ "" ∧ pr2 = true) ∧
    (∀ (ou2 : String) (cf2 : Bool) (acc2 : String) (pr2 : Bool)
        (fr : Except String String) (mv cl : Except String Unit),
      Event.closeCall ∈ (deleteCompensation ou2 cf2 acc2 pr2 fr mv cl).1 →
        cf2 = true ∧ acc2 ≠ "" ∧ pr2 = true) ∧
    (∀ (ou2 : String) (cf2 : Bool) (acc2 : String) (pr2 : Bool)
        (fr : Except String String) (mv cl : Except String Unit),
      Event.closeCall ∈ (deleteCompensation ou2 cf2 acc2 pr2 fr mv cl).1 →
      Event.moveCall ∈ (deleteCompensation ou2 cf2 acc2 pr2 fr mv cl).1 →
        (deleteCompensation ou2 cf2 acc2 pr2 fr mv cl).1 =
          [Event.findRootCall, Event.moveCall, Event.closeCall]) ∧
    (∀ e, deleteCompensation ouId true accountId true (Except.ok rootId)
        (Except.error e) (Except.ok ()) =
      ([Event.findRootCall, Event.moveCall], some e)) ∧
    (∀ e, deleteCompensation ouId true accountId true (Except.ok rootId)
        (Except.ok ()) (Except.error e) =
      ([Event.findRootCall, Event.moveCall, Event.closeCall],
        some ("error closing account " ++ accountId ++ ": " ++ e))) := by
  have hmcond : ouId ≠ "" ∧ accountId ≠ "" ∧ (true : Bool) = true := ⟨houId, hacct, rfl⟩
  have hccond : (true : Bool) = true ∧ accountId ≠ "" ∧ (true : Bool) = true :=
    ⟨rfl, hacct, rfl⟩
  refine ⟨?_, ?_, ?_, ?_, ?_, ?_⟩
  · simp [deleteCompensation, deleteMoveStep, deleteCloseStep, houId, hacct]
  · intro ou2 cf2 acc2 pr2 fr mv cl h
    unfold deleteCompensation at h
    rcases hms : deleteMoveStep ou2 acc2 pr2 fr mv with ⟨mevs, mr⟩
    rw [hms] at h
    match mr with
    | some e =>
      refine deleteMoveStep_gate ou2 acc2 pr2 fr mv ?_
      rw [hms]
      exact h
    | none =>
      rcases hcs : deleteCloseStep cf2 acc2 pr2 cl with ⟨cevs, cr⟩
      rw [hcs] at h
      rcases List.mem_append.mp h with h1 | h1
      · refine deleteMoveStep_gate ou2 acc2 pr2 fr mv ?_
        rw [hms]
        exact h1
      · exfalso
        refine moveCall_not_mem_closeStep cf2 acc2 pr2 cl ?_
        rw [hcs]
        exact h1
  · intro ou2 cf2 acc2 pr2 fr mv cl h
    unfold deleteCompensation at h
    rcases hms : deleteMoveStep ou2 acc2 pr2 fr mv with ⟨mevs, mr⟩
    rw [hms] at h
    match mr with
    | some e =>
      exfalso
      refine closeCall_not_mem_moveStep ou2 acc2 pr2 fr mv ?_
      rw [hms]
      exact h
    | none =>
      rcases hcs : deleteCloseStep cf2 acc2 pr2 cl with ⟨cevs, cr⟩
      rw [hcs] at h
      rcases List.mem_append.mp h with h1 | h1
      · exfalso
        refine closeCall_not_mem_moveStep ou2 acc2 pr2 fr mv ?_
        rw [hms]
        exact h1
      · refine deleteCloseStep_gate cf2 acc2 pr2 cl ?_
        rw [hcs]
        exact h1
  · intro ou2 cf2 acc2 pr2 fr mv cl hclose hmove
    unfold deleteCompensation at hclose hmove ⊢
    rcases hms : deleteMoveStep ou2 acc2 pr2 fr mv with ⟨mevs, mr⟩
    rw [hms] at hclose hmove
    match mr with
    | some e =>
      exfalso
      refine closeCall_not_mem_moveStep ou2 acc2 pr2 fr mv ?_
      rw [hms]
      exact hclose
    | none =>
      rcases hcs : deleteCloseStep cf2 acc2 pr2 cl with ⟨cevs, cr⟩
      rw [hcs] at hclose hmove
      have hmv : Event.moveCall ∈ mevs := by
        rcases List.mem_append.mp hmove with h1 | h1
        · exact h1
        · exfalso
          refine moveCall_not_mem_closeStep cf2 acc2 pr2 cl ?_
          rw [hcs]
          exact h1
      have hcl : Event.closeCall ∈ cevs := by
        rcases List.mem_append.mp hclose with h1 | h1
        · exfalso
          refine closeCall_not_mem_moveStep ou2 acc2 pr2 fr mv ?_
          rw [hms]
          exact h1
        · exact h1
      have hmevs : mevs = [Event.findRootCall, Event.moveCall] := by
        rcases deleteMoveStep_events ou2 acc2 pr2 fr mv with h | h | h
        · rw [hms] at h
          have h2 : mevs = [] := h
          rw [h2] at hmv
          simp at hmv
        · rw [hms] at h
          have h2 : mevs = [Event.findRootCall] := h
          rw [h2] at hmv
          simp at hmv
        · rw [hms] at h
          exact h
      have hcevs : cevs = [Event.closeCall] := by
        rcases deleteCloseStep_events cf2 acc2 pr2 cl with h | h
        · rw [hcs] at h
          have h2 : cevs = [] := h
          rw [h2] at hcl
          simp at hcl
        · rw [hcs] at h
          exact h
      rw [hmevs, hcevs]
      rfl
  · intro e
    simp [deleteCompensation, deleteMoveStep, houId, hacct]
  · intro e
    simp [deleteCompensation, deleteMoveStep, deleteCloseStep, houId, hacct]

/-- Witness for C9 at concrete identifiers. -/
theorem delete_move_before_close_witness :
    deleteCompensation "ou-ab12-cdef1234" true "123456789012" true
        (Except.ok "r-root1") (Except.ok ()) (Except.ok ()) =
      ([Event.findRootCall, Event.moveCall, Event.closeCall], none) :=
  (delete_move_before_close "ou-ab12-cdef1234" "123456789012" "r-root1"
    (by decide) (by decide)).1

end ControlTower
